import Mathlib

/-!
Verification of `generate-content.js` (the single source file of this
repository): a batch job that builds a prompt, calls a remote completion
API, extracts a JSON object from the reply text, overwrites its `date`
field with a locally computed date string, and writes the result to
`data/today.json`.

The script is embedded shallowly:

* `Json` models the JavaScript values produced by `JSON.parse` on the
  sub-grammar used by this program (objects, arrays, strings, booleans,
  null; number literals and string escape sequences are outside the
  fragment this development evaluates, so they are omitted — the schema
  in question is all-strings).
* `extractJson` models `aiReply.match(/\x7b[\s\S]*\x7d/)` on the
  character sequence of the reply (line 75 of the source).
* `generateContent` models the whole run with its ambient inputs
  (environment credential, system clock, transport outcome, file-system
  availability) passed explicitly, as the specification's design notes
  prescribe for testability.  The transport call count, the final exit
  code, the content written to `data/today.json` (if any) and the throw
  site of the failure (if any) are returned.
-/

/-- JavaScript values as produced by `JSON.parse` on the sub-grammar this
program's data uses: `null`, booleans, strings, arrays, and objects whose
properties keep insertion order (as JavaScript objects do). -/
inductive Json where
  | null : Json
  | bool : Bool → Json
  | str : String → Json
  | arr : List Json → Json
  | obj : List (String × Json) → Json

/-- Property update on an object's member list, with JavaScript semantics:
assigning to an existing key keeps its original position and replaces the
value; assigning a fresh key appends it at the end.  Used both by
`JSON.parse` for duplicate keys (the last value wins, the first position
is kept) and by the `healthData.date = dateStr` assignment (line 81). -/
def setKey (m : List (String × Json)) (k : String) (v : Json) : List (String × Json) :=
  match m with
  | [] => [(k, v)]
  | (k0, v0) :: rest => if k0 = k then (k0, v) :: rest else (k0, v0) :: setKey rest k v

/-- Property lookup on an object's member list. -/
def lookupKey (m : List (String × Json)) (k : String) : Option Json :=
  match m with
  | [] => none
  | (k0, v0) :: rest => if k0 = k then some v0 else lookupKey rest k

/-- `j[k]` for an object `j`; `none` models `undefined` (also when `j` is
not an object, where property access on the relevant values of this
program yields `undefined` or throws). -/
def getField (j : Json) (k : String) : Option Json :=
  match j with
  | Json.obj m => lookupKey m k
  | _ => none

/-- `j[k]` when the result is a string, else `none`. -/
def getStr (j : Json) (k : String) : Option String :=
  match getField j k with
  | some (Json.str s) => some s
  | _ => none

/-- The member list of an object, `none` otherwise. -/
def getObj (j : Json) : Option (List (String × Json)) :=
  match j with
  | Json.obj m => some m
  | _ => none

/-- `j.date = v` (line 81): on an object the property is set in place /
appended; on any other value the assignment is a silent no-op (the script
does not run in strict mode).  In every run the assigned value is the
result of parsing a text that begins with an opening brace, hence an
object. -/
def setField (j : Json) (k : String) (v : Json) : Json :=
  match j with
  | Json.obj m => Json.obj (setKey m k v)
  | _ => j

/-- Skip JSON insignificant whitespace. -/
def skipWs : List Char → List Char
  | [] => []
  | c :: rest =>
    if c = ' ' ∨ c = '\n' ∨ c = '\t' ∨ c = '\r' then skipWs rest else c :: rest

/-- Characters of a JSON string literal after the opening quote, up to the
closing quote (escape sequences are outside the evaluated fragment and
are rejected).  Returns the string's characters and the rest of the
input. -/
def strChars : List Char → Option (List Char × List Char)
  | [] => none
  | c :: rest =>
    if c = '"' then some ([], rest)
    else if c = '\\' then none
    else
      match strChars rest with
      | some (cs, rem) => some (c :: cs, rem)
      | none => none

mutual

/-- Recursive-descent `JSON.parse` on the sub-grammar described at the top
of this file, with a fuel argument for termination; `parseJson` supplies
fuel that is ample for its input. -/
def parseValue : Nat → List Char → Option (Json × List Char)
  | 0, _ => none
  | fuel + 1, s =>
    match skipWs s with
    | '{' :: rest => parseObjRest fuel (skipWs rest)
    | '[' :: rest => parseArrRest fuel (skipWs rest)
    | '"' :: rest =>
      match strChars rest with
      | some (cs, rem) => some (Json.str (String.mk cs), rem)
      | none => none
    | 't' :: 'r' :: 'u' :: 'e' :: rest => some (Json.bool true, rest)
    | 'f' :: 'a' :: 'l' :: 's' :: 'e' :: rest => some (Json.bool false, rest)
    | 'n' :: 'u' :: 'l' :: 'l' :: rest => some (Json.null, rest)
    | _ => none

/-- Inside an object, right after the opening brace and any whitespace. -/
def parseObjRest : Nat → List Char → Option (Json × List Char)
  | 0, _ => none
  | fuel + 1, s =>
    match s with
    | c :: rest => if c = '}' then some (Json.obj [], rest) else parseMembers fuel [] (c :: rest)
    | [] => parseMembers fuel [] []

/-- One or more `"key": value` members, separated by commas. -/
def parseMembers : Nat → List (String × Json) → List Char → Option (Json × List Char)
  | 0, _, _ => none
  | fuel + 1, acc, s =>
    match skipWs s with
    | '"' :: rest =>
      match strChars rest with
      | some (kcs, rem) =>
        match skipWs rem with
        | ':' :: rem2 =>
          match parseValue fuel rem2 with
          | some (v, rem3) =>
            match skipWs rem3 with
            | ',' :: rem4 => parseMembers fuel (setKey acc (String.mk kcs) v) rem4
            | '}' :: rem4 => some (Json.obj (setKey acc (String.mk kcs) v), rem4)
            | _ => none
          | none => none
        | _ => none
      | none => none
    | _ => none

/-- Inside an array, right after the opening bracket and any whitespace. -/
def parseArrRest : Nat → List Char → Option (Json × List Char)
  | 0, _ => none
  | fuel + 1, s =>
    match s with
    | c :: rest => if c = ']' then some (Json.arr [], rest) else parseItems fuel [] (c :: rest)
    | [] => parseItems fuel [] []

/-- One or more array items, separated by commas. -/
def parseItems : Nat → List Json → List Char → Option (Json × List Char)
  | 0, _, _ => none
  | fuel + 1, acc, s =>
    match parseValue fuel s with
    | some (v, rem) =>
      match skipWs rem with
      | ',' :: rem2 => parseItems fuel (acc ++ [v]) rem2
      | ']' :: rem2 => some (Json.arr (acc ++ [v]), rem2)
      | _ => none
    | none => none

end

/-- `JSON.parse` of a whole text (line 79): one value, then only
whitespace may remain. -/
def parseJson (s : List Char) : Option Json :=
  match parseValue (s.length * 4 + 16) s with
  | some (v, rem) => if skipWs rem = [] then some v else none
  | none => none

/-- A text is a well-formed JSON object when `JSON.parse` accepts it and
yields an object. -/
def isJsonObjStr (t : List Char) : Bool :=
  match parseJson t with
  | some (Json.obj _) => true
  | _ => false

/-- The longest prefix of `s` ending at the last closing brace of `s`
(empty when `s` has none): this is how far the greedy quantifier of
the extraction pattern reaches. -/
def dropAfterLastClose (s : List Char) : List Char :=
  (List.dropWhile (fun c => c != '}') s.reverse).reverse

/-- Models `aiReply.match(/\x7b[\s\S]*\x7d/)` (line 75): the leftmost
match of the pattern starts at the first opening brace that has some
closing brace after it, and the greedy `[\s\S]*` extends the match to the
last closing brace of the whole text.  `none` models a reply in which the
pattern does not match at all. -/
def extractJson : List Char → Option (List Char)
  | [] => none
  | c :: rest =>
    if c = '{' ∧ '}' ∈ rest then some (c :: dropAfterLastClose rest)
    else extractJson rest

/-- A text contains a `\x7b...\x7d` substring: some position holds an
opening brace with a closing brace somewhere after it.  This is the
condition under which the extraction pattern matches. -/
def hasBracePair : List Char → Bool
  | [] => false
  | c :: rest => (decide (c = '{') && decide ('}' ∈ rest)) || hasBracePair rest

/-- The system clock reduced to the civil date it denotes in the fixed
Asia/Shanghai zone (UTC+8, no daylight saving).  The programs reads the
clock once (line 13) and uses only this civil date. -/
structure Clock where
  year : Nat
  month : Nat
  day : Nat

/-- Models line 15:
`today.toLocaleDateString('zh-CN', \x7b timeZone: 'Asia/Shanghai' \x7d).replace(/\//g, '-')`.
Under an ICU `zh-CN` locale the numeric date format is `y/M/d` — year,
month, day as plain numbers with NO zero padding (February 2, 2024
renders as `2024/2/2`) — and the replacement turns the slashes into
hyphens. -/
def dateStr (today : Clock) : String :=
  toString today.year ++ "-" ++ toString today.month ++ "-" ++ toString today.day

/-- Models `response.data.choices[0].message.content` followed by the
`.match` call (lines 73 and 75): the chain yields a usable reply string
exactly when `choices` is an array with a first element whose `message`
property is an object with a string `content`; on any other shape the
chain (or the `.match` on a non-string) throws a `TypeError`, modelled by
`none`. -/
def getContent (body : Json) : Option String :=
  match getField body "choices" with
  | some (Json.arr (first :: _)) =>
    match getField first "message" with
    | some msg =>
      match getField msg "content" with
      | some (Json.str s) => some s
      | _ => none
    | _ => none
  | _ => none

/-- `n` spaces. -/
def sp (n : Nat) : String :=
  String.mk (List.replicate n ' ')

mutual

/-- Models `JSON.stringify(x, null, 2)` (line 94) at indentation depth
`d`: pretty-printed JSON with two-space indentation, members and items
one per line, `": "` after each key; empty objects and arrays print with
no inner newline.  (The strings of this program need no escape
sequences.) -/
def stringifyVal : Nat → Json → String
  | _, Json.null => "null"
  | _, Json.bool true => "true"
  | _, Json.bool false => "false"
  | _, Json.str s => "\"" ++ s ++ "\""
  | _, Json.arr [] => "[]"
  | d, Json.arr (x :: xs) =>
    "[\n" ++ stringifyItems (d + 1) (x :: xs) ++ "\n" ++ sp (2 * d) ++ "]"
  | _, Json.obj [] => "\x7b\x7d"
  | d, Json.obj (kv :: kvs) =>
    "\x7b\n" ++ stringifyMembers (d + 1) (kv :: kvs) ++ "\n" ++ sp (2 * d) ++ "\x7d"

/-- Object members, one per line, comma-separated. -/
def stringifyMembers : Nat → List (String × Json) → String
  | _, [] => ""
  | d, [(k, v)] => sp (2 * d) ++ "\"" ++ k ++ "\": " ++ stringifyVal d v
  | d, (k, v) :: kv :: kvs =>
    sp (2 * d) ++ "\"" ++ k ++ "\": " ++ stringifyVal d v ++ ",\n" ++
      stringifyMembers d (kv :: kvs)

/-- Array items, one per line, comma-separated. -/
def stringifyItems : Nat → List Json → String
  | _, [] => ""
  | d, [v] => sp (2 * d) ++ stringifyVal d v
  | d, v :: w :: vs => sp (2 * d) ++ stringifyVal d v ++ ",\n" ++ stringifyItems d (w :: vs)

end

/-- The bytes `fs.writeFile` receives: `JSON.stringify(healthData, null, 2)`. -/
def stringify (j : Json) : String :=
  stringifyVal 0 j

/-- The outcome of the single `axios.post` call (lines 64 to 70), as seen
by the script: a success response with a parsed JSON body, an HTTP error
response (axios rejects with `error.response` set, carrying the status
and body), or no response at all — DNS, connection or timeout failure —
(axios rejects with only `error.request` set). -/
inductive TransportOutcome where
  | ok : Json → TransportOutcome
  | httpError : Nat → Json → TransportOutcome
  | noResponse : TransportOutcome

/-- The throw sites of a run, by source line: the missing-credential throw
(line 21), the axios rejection without a response (network) or with one
(API error, carrying the status), the `TypeError` from reading
`choices[0].message.content` on an ill-shaped body (line 73), the
explicit throw when the extraction pattern does not match (line 77), the
`JSON.parse` throw (line 79), and a directory-creation or file-write
failure (lines 88 to 94). -/
inductive RunError where
  | configError : RunError
  | networkError : RunError
  | apiError : Nat → RunError
  | noContent : RunError
  | malformedReply : RunError
  | parseFailure : RunError
  | fsFailure : RunError

/-- The three arms of the catch block (lines 100 to 110): `error.response`
set → the API branch (logs the status code), else `error.request` set →
the network branch, else the generic script-error branch. -/
inductive LogBranch where
  | apiBranch : LogBranch
  | networkBranch : LogBranch
  | scriptBranch : LogBranch

/-- Which catch arm each failure reaches: only an axios rejection carries
`response` or `request`; every error thrown by the script itself (config,
content shape, extraction, parse, file system) lands in the generic
script-error branch. -/
def catchBranch : RunError → LogBranch
  | RunError.apiError _ => LogBranch.apiBranch
  | RunError.networkError => LogBranch.networkBranch
  | _ => LogBranch.scriptBranch

/-- What a run observably did: the process exit code (0 when
`generateContent` returns normally, 1 via `process.exit(1)` in the catch
block), the content written to `data/today.json` (`none` when the file
was left untouched), how many times the transport was invoked, and the
failure's throw site if any. -/
structure RunResult where
  exitCode : Nat
  written : Option Json
  transportCalls : Nat
  error : Option RunError

/-- The whole run of `generateContent` (lines 8 to 114), with its ambient
inputs passed explicitly: `apiKey` is `process.env.AI_API_KEY` (`none`
models an unset variable; the guard `!AI_API_KEY` also rejects the empty
string), `today` the system clock's civil date in Asia/Shanghai,
`transport` the outcome of the one `axios.post`, and `fsOk` whether the
directory-creation/file-write step succeeds (the write either fully
replaces the file or leaves it untouched).  Every failure is caught by
the catch block and ends in `process.exit(1)` with nothing written. -/
def generateContent (apiKey : Option String) (today : Clock)
    (transport : TransportOutcome) (fsOk : Bool) : RunResult :=
  match apiKey with
  | none => ⟨1, none, 0, some RunError.configError⟩
  | some key =>
    if key = "" then ⟨1, none, 0, some RunError.configError⟩
    else
      match transport with
      | TransportOutcome.noResponse => ⟨1, none, 1, some RunError.networkError⟩
      | TransportOutcome.httpError status _ => ⟨1, none, 1, some (RunError.apiError status)⟩
      | TransportOutcome.ok body =>
        match getContent body with
        | none => ⟨1, none, 1, some RunError.noContent⟩
        | some aiReply =>
          match extractJson aiReply.data with
          | none => ⟨1, none, 1, some RunError.malformedReply⟩
          | some jsonChars =>
            match parseJson jsonChars with
            | none => ⟨1, none, 1, some RunError.parseFailure⟩
            | some healthData =>
              if fsOk then
                ⟨0, some (setField healthData "date" (Json.str (dateStr today))), 1, none⟩
              else ⟨1, none, 1, some RunError.fsFailure⟩

/-- The bytes the run put into `data/today.json`, if any. -/
def writtenBytes (r : RunResult) : Option String :=
  Option.map stringify r.written

/-- The `date` string of the object the run wrote, if any. -/
def writtenDate (r : RunResult) : Option String :=
  match r.written with
  | some v => getStr v "date"
  | none => none

/-- The `healthTips` object of the specification's end-to-end mock reply:
a well-formed instance of the schema of section 3. -/
def mockTips : Json :=
  Json.obj
    [("sugar", Json.obj
        [("dailyAmount", Json.str "25克以内"),
         ("note", Json.str "少喝甜饮料")]),
     ("calorie", Json.obj
        [("range", Json.obj
            [("lightActivity", Json.str "1800-2000千卡"),
             ("moderateActivity", Json.str "2000-2400千卡"),
             ("heavyActivity", Json.str "2400-3000千卡")]),
         ("tip", Json.str "根据活动量调整")]),
     ("caffeine", Json.obj
        [("safeAmount", Json.str "不超过400毫克"),
         ("warning", Json.str "过量易失眠")])]

/-- The specification's end-to-end mock reply: prose, then a well-formed
JSON object whose `date` is `2024-01-01` and whose `healthTips` is
`mockTips`. -/
def mockReply : String :=
  "Sure! \x7b\"date\":\"2024-01-01\",\"healthTips\":\x7b" ++
    "\"sugar\":\x7b\"dailyAmount\":\"25克以内\",\"note\":\"少喝甜饮料\"\x7d," ++
    "\"calorie\":\x7b\"range\":\x7b\"lightActivity\":\"1800-2000千卡\"," ++
    "\"moderateActivity\":\"2000-2400千卡\",\"heavyActivity\":\"2400-3000千卡\"\x7d," ++
    "\"tip\":\"根据活动量调整\"\x7d," ++
    "\"caffeine\":\x7b\"safeAmount\":\"不超过400毫克\",\"warning\":\"过量易失眠\"\x7d\x7d\x7d"

/-- A transport success whose body carries `reply` at
`choices[0].message.content`, the shape of the remote API's success
response. -/
def okBody (reply : String) : Json :=
  Json.obj
    [("choices", Json.arr
        [Json.obj [("message", Json.obj [("content", Json.str reply)])]])]

/-- The end-to-end run of section 8: the mock reply under a clock reading
February 2, 2024 (Asia/Shanghai), credential present, file system fine. -/
def mockRun : RunResult :=
  generateContent (some "test-key") ⟨2024, 2, 2⟩ (TransportOutcome.ok (okBody mockReply)) true

/-- Whether `j` is an object whose key set is exactly `expected`. -/
def keysExactly (j : Json) (expected : List String) : Bool :=
  match getObj j with
  | some m =>
    m.all (fun kv => expected.contains kv.1) &&
      expected.all (fun k => (m.map Prod.fst).contains k)
  | none => false

/-- Modelled from the spec (sections 3 and 6): conformance to the fixed
HealthRecord schema — a string `date` plus `healthTips` holding exactly
`sugar.\x7bdailyAmount,note\x7d`,
`calorie.\x7brange.\x7blightActivity,moderateActivity,heavyActivity\x7d,tip\x7d`
and `caffeine.\x7bsafeAmount,warning\x7d`, every leaf a string.  The
source contains no such validation step; this definition exists to
compare the spec's claimed schema guarantee with what the code writes. -/
def conformsHealthRecord (j : Json) : Bool :=
  keysExactly j ["date", "healthTips"] &&
  (getStr j "date").isSome &&
  (match getField j "healthTips" with
   | some tips =>
     keysExactly tips ["sugar", "calorie", "caffeine"] &&
     (match getField tips "sugar" with
      | some s =>
        keysExactly s ["dailyAmount", "note"] &&
          (getStr s "dailyAmount").isSome && (getStr s "note").isSome
      | none => false) &&
     (match getField tips "calorie" with
      | some c =>
        keysExactly c ["range", "tip"] &&
        (match getField c "range" with
         | some r =>
           keysExactly r ["lightActivity", "moderateActivity", "heavyActivity"] &&
             (getStr r "lightActivity").isSome &&
             (getStr r "moderateActivity").isSome &&
             (getStr r "heavyActivity").isSome
         | none => false) &&
        (getStr c "tip").isSome
      | none => false) &&
     (match getField tips "caffeine" with
      | some cf =>
        keysExactly cf ["safeAmount", "warning"] &&
          (getStr cf "safeAmount").isSome && (getStr cf "warning").isSome
      | none => false)
   | none => false)

theorem lookupKey_setKey (m : List (String × Json)) (k : String) (v : Json) :
    lookupKey (setKey m k v) k = some v := by
  induction m with
  | nil => simp [setKey, lookupKey]
  | cons kv rest ih =>
    obtain ⟨k0, v0⟩ := kv
    by_cases hk : k0 = k
    · simp [setKey, lookupKey, hk]
    · simp [setKey, lookupKey, hk, ih]

theorem extractJson_head (s l : List Char) (h : extractJson s = some l) :
    ∃ mid, l = '{' :: mid := by
  induction s with
  | nil => exact absurd h (by simp [extractJson])
  | cons c rest ih =>
    rw [extractJson] at h
    split at h
    · rename_i hcond
      obtain ⟨hc, _⟩ := hcond
      subst hc
      exact ⟨dropAfterLastClose rest, (Option.some.injEq _ _ ▸ h).symm⟩
    · exact ih h

theorem parseMembers_obj (fuel : Nat) :
    ∀ (acc : List (String × Json)) (s : List Char) (v : Json) (rem : List Char),
      parseMembers fuel acc s = some (v, rem) → ∃ m, v = Json.obj m := by
  induction fuel with
  | zero => intro acc s v rem h; exact Option.noConfusion h
  | succ n ih =>
    intro acc s v rem h
    rw [parseMembers] at h
    repeat split at h
    all_goals try exact ih _ _ _ _ h
    all_goals try exact Option.noConfusion h
    all_goals injection h with h1
    all_goals injection h1 with h2 h3
    all_goals exact ⟨_, h2.symm⟩

theorem parseObjRest_obj (fuel : Nat) (s : List Char) (v : Json) (rem : List Char)
    (h : parseObjRest fuel s = some (v, rem)) : ∃ m, v = Json.obj m := by
  cases fuel with
  | zero => exact Option.noConfusion h
  | succ n =>
    cases s with
    | nil => exact parseMembers_obj n [] [] v rem h
    | cons c rest =>
      by_cases hc : c = '}'
      · subst hc
        have h2 : (some (Json.obj [], rest) : Option (Json × List Char)) = some (v, rem) := h
        injection h2 with h1
        injection h1 with h2 h3
        exact ⟨[], h2.symm⟩
      · have h2 : (if c = '}' then some (Json.obj [], rest)
            else parseMembers n [] (c :: rest)) = some (v, rem) := h
        rw [if_neg hc] at h2
        exact parseMembers_obj n _ _ _ _ h2

theorem parseValue_brace_obj (fuel : Nat) (rest : List Char) (w : Json) (rem : List Char)
    (h : parseValue fuel ('{' :: rest) = some (w, rem)) : ∃ m, w = Json.obj m := by
  cases fuel with
  | zero => exact Option.noConfusion h
  | succ n => exact parseObjRest_obj n (skipWs rest) w rem h

theorem parseJson_brace_obj (rest : List Char) (v : Json)
    (h : parseJson ('{' :: rest) = some v) : ∃ m, v = Json.obj m := by
  rw [parseJson] at h
  split at h
  · rename_i w rem hres
    split at h
    · simp only [Option.some.injEq] at h
      obtain ⟨m, hm⟩ := parseValue_brace_obj _ _ _ _ hres
      exact ⟨m, h ▸ hm⟩
    · exact Option.noConfusion h
  · exact Option.noConfusion h

example : parseJson ("\x7b\"a\":\"b\"\x7d").data = some (Json.obj [("a", Json.str "b")]) := by rfl

theorem extractJson_eq_none (s : List Char) (h : hasBracePair s = false) :
    extractJson s = none := by
  induction s with
  | nil => rfl
  | cons c rest ih =>
    rw [hasBracePair, Bool.or_eq_false_iff] at h
    obtain ⟨h1, h2⟩ := h
    rw [extractJson, if_neg]
    · exact ih h2
    · intro hcond
      simp [hcond.1, hcond.2] at h1

theorem dropAfterLastClose_append (mid post : List Char) (hpost : '}' ∉ post) :
    dropAfterLastClose (mid ++ '}' :: post) = mid ++ ['}'] := by
  have hall : ∀ a ∈ post.reverse, (a != '}') = true := by
    intro a ha
    rw [List.mem_reverse] at ha
    simp only [bne_iff_ne, ne_eq]
    exact fun he => hpost (he ▸ ha)
  rw [dropAfterLastClose, List.reverse_append, List.reverse_cons, List.append_assoc,
    List.singleton_append, List.dropWhile_append_of_pos hall,
    List.dropWhile_cons_of_neg (by simp), List.reverse_cons, List.reverse_reverse]

theorem extractJson_exact (pre mid post : List Char)
    (hpre : '{' ∉ pre) (hpost : '}' ∉ post) :
    extractJson (pre ++ ('{' :: (mid ++ ['}'])) ++ post) = some ('{' :: (mid ++ ['}'])) := by
  induction pre with
  | nil =>
    rw [List.nil_append, List.cons_append, extractJson, if_pos]
    · have e : (mid ++ ['}']) ++ post = mid ++ '}' :: post := by
        rw [List.append_assoc, List.singleton_append]
      rw [e, dropAfterLastClose_append mid post hpost]
    · exact ⟨rfl, by simp⟩
  | cons c pre' ih =>
    have hc : c ≠ '{' := fun he => hpre (he ▸ List.mem_cons_self c pre')
    have hpre' : '{' ∉ pre' := fun hm => hpre (List.mem_cons_of_mem _ hm)
    rw [List.cons_append, List.cons_append, extractJson, if_neg]
    · exact ih hpre'
    · intro hcond
      exact hc hcond.1

theorem written_some_shape (apiKey : Option String) (today : Clock)
    (transport : TransportOutcome) (fsOk : Bool) (v : Json)
    (h : (generateContent apiKey today transport fsOk).written = some v) :
    ∃ m, v = Json.obj (setKey m "date" (Json.str (dateStr today))) := by
  cases apiKey with
  | none => exact absurd h (by simp [generateContent])
  | some key =>
    by_cases hk : key = ""
    · exact absurd h (by simp [generateContent, hk])
    · cases transport with
      | noResponse => exact absurd h (by simp [generateContent, hk])
      | httpError status b => exact absurd h (by simp [generateContent, hk])
      | ok body =>
        cases hgc : getContent body with
        | none => exact absurd h (by simp [generateContent, hk, hgc])
        | some aiReply =>
          cases hex : extractJson aiReply.data with
          | none => exact absurd h (by simp [generateContent, hk, hgc, hex])
          | some jsonChars =>
            cases hpj : parseJson jsonChars with
            | none => exact absurd h (by simp [generateContent, hk, hgc, hex, hpj])
            | some healthData =>
              cases fsOk with
              | false => exact absurd h (by simp [generateContent, hk, hgc, hex, hpj])
              | true =>
                have hv : setField healthData "date" (Json.str (dateStr today)) = v := by
                  have h2 := h
                  simp [generateContent, hk, hgc, hex, hpj] at h2
                  exact h2
                obtain ⟨mid, hmid⟩ := extractJson_head _ _ hex
                obtain ⟨m, hm⟩ := parseJson_brace_obj mid healthData (hmid ▸ hpj)
                subst hm
                exact ⟨m, hv ▸ rfl⟩

/-- Claim C1 (amended): the extraction is a greedy first-brace-to-last-brace
match, so it recovers a well-formed JSON object contained in the reply
exactly when the surrounding prose contributes no interfering brace: no
opening brace before the object and no closing brace after it.  (As
stated over arbitrary prose the claim fails; see the counterexample.) -/
theorem C1_extraction_recovers_isolated_object
    (pre t post mid : List Char)
    (ht : isJsonObjStr t = true)
    (hshape : t = '{' :: (mid ++ ['}']))
    (hpre : '{' ∉ pre) (hpost : '}' ∉ post) :
    extractJson (pre ++ t ++ post) = some t := by
  subst hshape
  exact extractJson_exact pre mid post hpre hpost

theorem C1_extraction_witness :
    isJsonObjStr ("\x7b\"a\":\"b\"\x7d").data = true ∧
    extractJson (("Sure! ").data ++ ("\x7b\"a\":\"b\"\x7d").data ++ (" thanks").data) =
      some ("\x7b\"a\":\"b\"\x7d").data :=
  ⟨by decide,
   C1_extraction_recovers_isolated_object ("Sure! ").data ("\x7b\"a\":\"b\"\x7d").data
     (" thanks").data ("\"a\":\"b\"").data (by decide) (by decide) (by decide) (by decide)⟩

/-- Claim C1 as stated is false: in the reply
`\x7b"a":"b"\x7d x\x7d` the well-formed object `\x7b"a":"b"\x7d` occurs
(with prose ` x\x7d` after it), yet the greedy pattern captures up to the
last closing brace and returns `\x7b"a":"b"\x7d x\x7d`, an extension of
the object. -/
theorem C1_extraction_counterexample :
    ¬ (∀ pre t post : List Char, isJsonObjStr t = true →
        extractJson (pre ++ t ++ post) = some t) := by
  intro hclaim
  have h := hclaim [] ("\x7b\"a\":\"b\"\x7d").data (" x\x7d").data (by decide)
  rw [List.nil_append] at h
  exact absurd h (by decide)

/-- Claim C2: whenever a run writes an output object, its `date` field is
the locally computed canonical date string for the injected clock,
whatever the reply contained. -/
theorem C2_written_date_is_local (apiKey : Option String) (today : Clock)
    (transport : TransportOutcome) (fsOk : Bool) (v : Json)
    (h : (generateContent apiKey today transport fsOk).written = some v) :
    getStr v "date" = some (dateStr today) := by
  obtain ⟨m, hm⟩ := written_some_shape apiKey today transport fsOk v h
  subst hm
  simp [getStr, getField, lookupKey_setKey]

set_option maxRecDepth 40000 in
theorem C2_witness :
    getStr (Json.obj [("date", Json.str "2024-2-2"), ("healthTips", mockTips)]) "date" =
      some (dateStr ⟨2024, 2, 2⟩) :=
  C2_written_date_is_local (some "test-key") ⟨2024, 2, 2⟩
    (TransportOutcome.ok (okBody mockReply)) true _ rfl

/-- Claim C3 as stated is false: the program performs no schema
validation, so a reply whose JSON object is `\x7b\x7d` is written as
`\x7b "date": ... \x7d` with no `healthTips` at all, violating the
HealthRecord schema. -/
theorem C3_schema_counterexample :
    ¬ (∀ (apiKey : Option String) (today : Clock) (transport : TransportOutcome)
        (fsOk : Bool) (v : Json),
        (generateContent apiKey today transport fsOk).written = some v →
        conformsHealthRecord v = true) := by
  intro hclaim
  have h := hclaim (some "k") ⟨2024, 2, 2⟩ (TransportOutcome.ok (okBody "\x7b\x7d")) true
      (Json.obj [("date", Json.str "2024-2-2")]) rfl
  exact absurd h (by decide)

/-- Claim C3 (amended): the only repair the program performs before
writing is overwriting the `date` field; the written object is exactly
the result of parsing the substring extracted from the transport's reply,
with its `date` field overwritten and nothing else validated or changed,
so it conforms to the HealthRecord schema only if the reply already did. -/
theorem C3_no_validation_only_date_overwrite (apiKey : Option String) (today : Clock)
    (transport : TransportOutcome) (fsOk : Bool) (v : Json)
    (h : (generateContent apiKey today transport fsOk).written = some v) :
    ∃ key body aiReply jsonChars healthData,
      apiKey = some key ∧
      transport = TransportOutcome.ok body ∧
      getContent body = some aiReply ∧
      extractJson aiReply.data = some jsonChars ∧
      parseJson jsonChars = some healthData ∧
      v = setField healthData "date" (Json.str (dateStr today)) := by
  cases apiKey with
  | none => exact absurd h (by simp [generateContent])
  | some key =>
    by_cases hk : key = ""
    · exact absurd h (by simp [generateContent, hk])
    · cases transport with
      | noResponse => exact absurd h (by simp [generateContent, hk])
      | httpError status b => exact absurd h (by simp [generateContent, hk])
      | ok body =>
        cases hgc : getContent body with
        | none => exact absurd h (by simp [generateContent, hk, hgc])
        | some aiReply =>
          cases hex : extractJson aiReply.data with
          | none => exact absurd h (by simp [generateContent, hk, hgc, hex])
          | some jsonChars =>
            cases hpj : parseJson jsonChars with
            | none => exact absurd h (by simp [generateContent, hk, hgc, hex, hpj])
            | some healthData =>
              cases fsOk with
              | false => exact absurd h (by simp [generateContent, hk, hgc, hex, hpj])
              | true =>
                have hv : setField healthData "date" (Json.str (dateStr today)) = v := by
                  have h2 := h
                  simp [generateContent, hk, hgc, hex, hpj] at h2
                  exact h2
                exact ⟨key, body, aiReply, jsonChars, healthData, rfl, rfl, hgc, hex, hpj,
                  hv.symm⟩

theorem C3_witness :
    ∃ key body aiReply jsonChars healthData,
      (some "k" : Option String) = some key ∧
      TransportOutcome.ok (okBody "\x7b\x7d") = TransportOutcome.ok body ∧
      getContent body = some aiReply ∧
      extractJson aiReply.data = some jsonChars ∧
      parseJson jsonChars = some healthData ∧
      Json.obj [("date", Json.str "2024-2-2")] =
        setField healthData "date" (Json.str (dateStr ⟨2024, 2, 2⟩)) :=
  C3_no_validation_only_date_overwrite (some "k") ⟨2024, 2, 2⟩
    (TransportOutcome.ok (okBody "\x7b\x7d")) true
    (Json.obj [("date", Json.str "2024-2-2")]) rfl

/-- Claim C4: with the credential absent or empty, the run fails as a
configuration error before the transport is ever invoked: zero transport
calls, nothing written, non-zero exit. -/
theorem C4_config_error_before_transport (apiKey : Option String) (today : Clock)
    (transport : TransportOutcome) (fsOk : Bool)
    (h : apiKey = none ∨ apiKey = some "") :
    (generateContent apiKey today transport fsOk).transportCalls = 0 ∧
    (generateContent apiKey today transport fsOk).written = none ∧
    (generateContent apiKey today transport fsOk).exitCode = 1 ∧
    (generateContent apiKey today transport fsOk).error = some RunError.configError := by
  rcases h with h | h <;> subst h <;> simp [generateContent]

theorem C4_witness :
    (generateContent none ⟨2024, 2, 2⟩ TransportOutcome.noResponse true).transportCalls = 0 ∧
    (generateContent none ⟨2024, 2, 2⟩ TransportOutcome.noResponse true).written = none ∧
    (generateContent none ⟨2024, 2, 2⟩ TransportOutcome.noResponse true).exitCode = 1 ∧
    (generateContent none ⟨2024, 2, 2⟩ TransportOutcome.noResponse true).error =
      some RunError.configError :=
  C4_config_error_before_transport none ⟨2024, 2, 2⟩ TransportOutcome.noResponse true
    (Or.inl rfl)

set_option maxRecDepth 40000 in
/-- Claim C5 as stated is false: under a clock reading February 2, 2024
the code's zh-CN rendering produces `2024-2-2` (no zero padding), so the
written `date` is `2024-2-2`, not `2024-02-02`. -/
theorem C5_date_format_counterexample :
    writtenDate mockRun = some "2024-2-2" ∧ writtenDate mockRun ≠ some "2024-02-02" :=
  ⟨rfl, by decide⟩

set_option maxRecDepth 40000 in
/-- Claim C5 (amended): the end-to-end mock run writes the object whose
`date` is the locally rendered `2024-2-2` and whose `healthTips` is
copied verbatim from the mocked JSON, and exits successfully. -/
theorem C5_end_to_end_mock :
    mockRun.written =
      some (Json.obj [("date", Json.str "2024-2-2"), ("healthTips", mockTips)]) ∧
    mockRun.exitCode = 0 ∧ mockRun.error = none :=
  ⟨rfl, rfl, rfl⟩

/-- Claim C6: every run either succeeds — exit code 0, no error, an
output written — or fails — exit code 1 via `process.exit(1)`, an error
recorded, and the previous output file left untouched (nothing
written). -/
theorem C6_exit_and_write_discipline (apiKey : Option String) (today : Clock)
    (transport : TransportOutcome) (fsOk : Bool) :
    ((generateContent apiKey today transport fsOk).exitCode = 0 ∧
      (generateContent apiKey today transport fsOk).error = none ∧
      ((generateContent apiKey today transport fsOk).written).isSome = true) ∨
    ((generateContent apiKey today transport fsOk).exitCode = 1 ∧
      ((generateContent apiKey today transport fsOk).error).isSome = true ∧
      (generateContent apiKey today transport fsOk).written = none) := by
  cases apiKey with
  | none => right; simp [generateContent]
  | some key =>
    by_cases hk : key = ""
    · right; simp [generateContent, hk]
    · cases transport with
      | noResponse => right; simp [generateContent, hk]
      | httpError status b => right; simp [generateContent, hk]
      | ok body =>
        cases hgc : getContent body with
        | none => right; simp [generateContent, hk, hgc]
        | some aiReply =>
          cases hex : extractJson aiReply.data with
          | none => right; simp [generateContent, hk, hgc, hex]
          | some jsonChars =>
            cases hpj : parseJson jsonChars with
            | none => right; simp [generateContent, hk, hgc, hex, hpj]
            | some healthData =>
              cases fsOk with
              | false => right; simp [generateContent, hk, hgc, hex, hpj]
              | true => left; simp [generateContent, hk, hgc, hex, hpj]

/-- Claim C7: a reply without any opening brace followed by a closing
brace makes the run fail at the malformed-reply throw, with nothing
written and exit code 1. -/
theorem C7_no_brace_pair_malformed (key : String) (today : Clock) (body : Json)
    (reply : String) (fsOk : Bool) (hk : key ≠ "")
    (hc : getContent body = some reply) (hb : hasBracePair reply.data = false) :
    generateContent (some key) today (TransportOutcome.ok body) fsOk =
      ⟨1, none, 1, some RunError.malformedReply⟩ := by
  simp [generateContent, hk, hc, extractJson_eq_none reply.data hb]

theorem C7_witness :
    generateContent (some "k") ⟨2024, 2, 2⟩ (TransportOutcome.ok (okBody "no json here")) true =
      ⟨1, none, 1, some RunError.malformedReply⟩ :=
  C7_no_brace_pair_malformed "k" ⟨2024, 2, 2⟩ (okBody "no json here") "no json here" true
    (by decide) rfl (by decide)

/-- Claim C8: when the transport yields no response at all the run fails
in the network arm of the catch block — an error kind distinct from the
API-error kind used when an HTTP error response was received — with
nothing written and exit code 1. -/
theorem C8_network_error_distinct (key : String) (today : Clock) (fsOk : Bool)
    (status : Nat) (body : Json) (hk : key ≠ "") :
    generateContent (some key) today TransportOutcome.noResponse fsOk =
      ⟨1, none, 1, some RunError.networkError⟩ ∧
    catchBranch RunError.networkError = LogBranch.networkBranch ∧
    (generateContent (some key) today (TransportOutcome.httpError status body) fsOk).error =
      some (RunError.apiError status) ∧
    RunError.networkError ≠ RunError.apiError status := by
  refine ⟨by simp [generateContent, hk], rfl, by simp [generateContent, hk], ?_⟩
  intro h
  exact RunError.noConfusion h

theorem C8_witness :
    generateContent (some "k") ⟨2024, 2, 2⟩ TransportOutcome.noResponse true =
      ⟨1, none, 1, some RunError.networkError⟩ ∧
    catchBranch RunError.networkError = LogBranch.networkBranch ∧
    (generateContent (some "k") ⟨2024, 2, 2⟩ (TransportOutcome.httpError 500 Json.null) true).error =
      some (RunError.apiError 500) ∧
    RunError.networkError ≠ RunError.apiError 500 :=
  C8_network_error_distinct "k" ⟨2024, 2, 2⟩ true 500 Json.null (by decide)

/-- Claim C9: the run is deterministic in its injected inputs — with the
same transport outcome and the same clock, the bytes written do not
depend on anything else (in particular not on which non-empty credential
was supplied), so two such runs write identical bytes. -/
theorem C9_output_depends_only_on_reply_and_clock (k1 k2 : String) (today : Clock)
    (transport : TransportOutcome) (fsOk : Bool) (h1 : k1 ≠ "") (h2 : k2 ≠ "") :
    writtenBytes (generateContent (some k1) today transport fsOk) =
      writtenBytes (generateContent (some k2) today transport fsOk) := by
  simp [generateContent, h1, h2]

theorem C9_witness :
    writtenBytes (generateContent (some "alpha") ⟨2024, 2, 2⟩
        (TransportOutcome.ok (okBody mockReply)) true) =
      writtenBytes (generateContent (some "beta") ⟨2024, 2, 2⟩
        (TransportOutcome.ok (okBody mockReply)) true) :=
  C9_output_depends_only_on_reply_and_clock "alpha" "beta" ⟨2024, 2, 2⟩
    (TransportOutcome.ok (okBody mockReply)) true (by decide) (by decide)

/-- Claim C10: a successful HTTP response whose body has no string at
`choices[0].message.content` makes the run fail with exit code 1 and
nothing written, through the generic script-error arm of the catch block
(the `TypeError` carries neither `response` nor `request`), not the API
arm. -/
theorem C10_missing_content_generic_branch (key : String) (today : Clock) (body : Json)
    (fsOk : Bool) (hk : key ≠ "") (hb : getContent body = none) :
    generateContent (some key) today (TransportOutcome.ok body) fsOk =
      ⟨1, none, 1, some RunError.noContent⟩ ∧
    catchBranch RunError.noContent = LogBranch.scriptBranch ∧
    LogBranch.scriptBranch ≠ LogBranch.apiBranch := by
  refine ⟨by simp [generateContent, hk, hb], rfl, ?_⟩
  intro h
  exact LogBranch.noConfusion h

theorem C10_witness :
    generateContent (some "k") ⟨2024, 2, 2⟩
        (TransportOutcome.ok (Json.obj [("choices", Json.arr [])])) true =
      ⟨1, none, 1, some RunError.noContent⟩ ∧
    catchBranch RunError.noContent = LogBranch.scriptBranch ∧
    LogBranch.scriptBranch ≠ LogBranch.apiBranch :=
  C10_missing_content_generic_branch "k" ⟨2024, 2, 2⟩ (Json.obj [("choices", Json.arr [])])
    true (by decide) rfl
